import Mathlib

/-!
Shallow embedding of the user-management backend core
(model: src/models/user.model.ts, service: src/services/user.service.ts,
validator: src/validators/user.validator.ts, pagination: utils/pagination.ts).

Records live in an ordered list modelling the MongoDB collection's natural
order; `find`/`findOne` return documents in that order.  Mongoose query
middleware `userSchema.pre(/^find/)` adds `isDeleted: false` to every
find-family query whose filter does not itself mention `isDeleted`; it does
NOT apply to `countDocuments` (the operation name does not match the regex),
which we model separately.  Timestamps are abstract integers supplied by the
caller ("now").  The unique indexes declared on `email`, `aadhaar`, `pan`
(unique: true in the schema) are enforced at save time over ALL documents,
soft-deleted or not, as MongoDB does.
-/

/-- One stored user document (interface IUser of user.model.ts).
`id` models the Mongo `_id`. `dateOfBirth`, `createdAt`, `updatedAt` are
millisecond timestamps modelled as integers. -/
structure UserRec where
  id : Nat
  name : String
  email : String
  primaryMobile : String
  secondaryMobile : Option String
  aadhaar : String
  pan : String
  dateOfBirth : Int
  placeOfBirth : String
  currentAddress : String
  permanentAddress : String
  isDeleted : Bool
  createdAt : Int
  updatedAt : Int
  version : Nat
deriving DecidableEq

/-- The collection plus the id generator state. -/
structure Store where
  users : List UserRec
  nextId : Nat
deriving DecidableEq

/-- A find-family query filter: an optional equality constraint on
`isDeleted` (none = the caller's filter does not mention `isDeleted`)
plus the rest of the caller's filter as a predicate. -/
structure QueryFilter where
  isDeletedEq : Option Bool := none
  pred : UserRec → Bool := fun _ => true

/-- `userSchema.pre(/^find/)`: when the query's filter does not specify
`isDeleted`, add `isDeleted: false`; otherwise leave it alone. -/
def preFindHook (isDeletedEq : Option Bool) : Option Bool :=
  match isDeletedEq with
  | none => some false
  | some b => some b

/-- Whether a document matches a filter (isDeleted constraint + rest). -/
def matchesFilter (isDeletedEq : Option Bool) (pred : UserRec → Bool) (u : UserRec) : Bool :=
  (match isDeletedEq with
   | none => true
   | some b => u.isDeleted == b) && pred u

/-- `Model.find(filter)` — the pre-find hook applies. -/
def findDocs (f : QueryFilter) (users : List UserRec) : List UserRec :=
  users.filter (matchesFilter (preFindHook f.isDeletedEq) f.pred)

/-- `Model.findOne(filter)` — the pre-find hook applies; first match in
collection order. -/
def findOneDoc (f : QueryFilter) (users : List UserRec) : Option UserRec :=
  users.find? (matchesFilter (preFindHook f.isDeletedEq) f.pred)

/-- `Model.countDocuments(filter)` — NOT a find-family operation, so the
pre-find hook does not run: the filter is used exactly as given. -/
def countDocs (f : QueryFilter) (users : List UserRec) : Nat :=
  (users.filter (matchesFilter f.isDeletedEq f.pred)).length

/- ---------- utils/pagination.ts ---------- -/

/-- Raw list/search query parameters. `page`/`limit` model the result of
JavaScript `parseInt` on the query string (none = absent or NaN);
`sort` is the raw `sort` query parameter. -/
structure ListQuery where
  page : Option Int := none
  limit : Option Int := none
  sort : Option String := none

/-- `Math.max(1, parseInt(query.page) || 1)` — note `0 || 1 = 1`. -/
def parsePage (pageQ : Option Int) : Nat :=
  let p : Int := match pageQ with
    | none => 1
    | some v => if v = 0 then 1 else v
  (max 1 p).toNat

/-- `Math.min(100, Math.max(1, parseInt(query.limit) || 10))`. -/
def parseLimit (limitQ : Option Int) : Nat :=
  let l : Int := match limitQ with
    | none => 10
    | some v => if v = 0 then 10 else v
  (min 100 (max 1 l)).toNat

/-- `calculateSkip`: `(page - 1) * limit`. -/
def calculateSkip (page limit : Nat) : Nat :=
  (page - 1) * limit

/-- Pagination metadata returned to clients. -/
structure PaginationMeta where
  page : Nat
  limit : Nat
  total : Nat
  totalPages : Nat
  hasNext : Bool
  hasPrev : Bool
deriving DecidableEq

/-- `Math.ceil(total / limit)` for natural inputs (limit is always ≥ 1
after clamping). -/
def ceilDiv (total limit : Nat) : Nat :=
  (total + limit - 1) / limit

/-- `PaginationHelper.generateMeta`. -/
def generateMeta (page limit total : Nat) : PaginationMeta :=
  let totalPages := ceilDiv total limit
  { page := page, limit := limit, total := total, totalPages := totalPages,
    hasNext := decide (page < totalPages), hasPrev := decide (page > 1) }

/-- The allow-list of sortable fields in `parseSortParam`. -/
def allowedSortFields : List String :=
  ["createdAt", "updatedAt", "name", "email"]

/-- `PaginationHelper.parseSortParam`: default and fallback `-createdAt`;
a leading `-` means descending. (A falsy — empty — sort string also falls
back, which coincides with the allow-list test failing for `""`.) -/
def parseSortParam (sortQuery : Option String) : String :=
  match sortQuery with
  | none => "-createdAt"
  | some s =>
    if s = "" then "-createdAt"
    else
      let f := if s.startsWith "-" then s.drop 1 else s
      if allowedSortFields.contains f then s else "-createdAt"

/-- Ascending comparison on the sort key named by `field`
(unknown fields behave like `createdAt`, which cannot occur after
`parseSortParam`). -/
def sortKeyLe (field : String) (a b : UserRec) : Bool :=
  if field = "name" then decide (a.name ≤ b.name)
  else if field = "email" then decide (a.email ≤ b.email)
  else if field = "updatedAt" then decide (a.updatedAt ≤ b.updatedAt)
  else decide (a.createdAt ≤ b.createdAt)

/-- Insert into a list sorted by `le` (stable). -/
def insertSorted (le : UserRec → UserRec → Bool) (x : UserRec) :
    List UserRec → List UserRec
  | [] => [x]
  | y :: ys => if le x y then x :: y :: ys else y :: insertSorted le x ys

/-- Model of the store's `.sort(...)` stage. -/
def insertionSort (le : UserRec → UserRec → Bool) :
    List UserRec → List UserRec
  | [] => []
  | x :: xs => insertSorted le x (insertionSort le xs)

/-- Interpret a mongoose sort string (`field` or `-field`). -/
def applySort (sortStr : String) (l : List UserRec) : List UserRec :=
  let desc := sortStr.startsWith "-"
  let field := if desc then sortStr.drop 1 else sortStr
  insertionSort (fun a b => if desc then sortKeyLe field b a else sortKeyLe field a b) l

/- ---------- user.model.ts: maskSensitiveData ---------- -/

/-- JavaScript `s.slice(-n)`: the last `n` characters (the whole string
when it is shorter than `n`). -/
def sliceLast (n : Nat) (s : String) : String :=
  String.mk (s.data.drop (s.data.length - n))

/-- `userSchema.methods.maskSensitiveData`: replace `aadhaar` by
`"XXXX-XXXX-" + aadhaar.slice(-4)` and `pan` by `"XXXXX" + pan.slice(-4)`;
the truthiness guards skip only the empty string.  Every other field
passes through unchanged. -/
def maskSensitiveData (u : UserRec) : UserRec :=
  { u with
    aadhaar := if u.aadhaar = "" then u.aadhaar else "XXXX-XXXX-" ++ sliceLast 4 u.aadhaar,
    pan := if u.pan = "" then u.pan else "XXXXX" ++ sliceLast 4 u.pan }

/- ---------- error taxonomy (middlewares/error.middleware.ts) ---------- -/

/-- Errors surfaced by the service layer.  `duplicateKey` models a
MongoDB unique-index rejection (MongoServerError code 11000) raised at a
physical write, carrying the violated index's field. -/
inductive ServiceError where
  | conflict (msg : String)
  | notFound (msg : String)
  | badRequest (msg : String)
  | duplicateKey (field : String)
deriving DecidableEq

/- ---------- user.service.ts ---------- -/

/-- A validated create payload (CreateUserInput of user.validator.ts):
all fields present, email lowercased, pan uppercased by the validator. -/
structure CreateUserInput where
  name : String
  email : String
  primaryMobile : String
  secondaryMobile : Option String
  aadhaar : String
  pan : String
  dateOfBirth : Int
  placeOfBirth : String
  currentAddress : String
  permanentAddress : String
deriving DecidableEq

/-- The `$or` filter of the create-time pre-check:
email OR aadhaar OR pan equality. -/
def matchesUniqQuery (inp : CreateUserInput) (u : UserRec) : Bool :=
  u.email == inp.email || u.aadhaar == inp.aadhaar || u.pan == inp.pan

/-- The pre-check lookup
`User.findOne({ $or: [{email}, {aadhaar}, {pan}] })` — being a `findOne`,
the pre-find hook adds `isDeleted: false`. -/
def findOneUniq (st : Store) (inp : CreateUserInput) : Option UserRec :=
  findOneDoc { pred := matchesUniqQuery inp } st.users

/-- The storage layer's unique-index enforcement on `email`, `aadhaar`,
`pan` (schema `unique: true`): indexes cover every document regardless of
`isDeleted`.  `excludeId` exempts the document being rewritten.  Returns
the first violated field, if any. -/
def indexViolation (users : List UserRec) (excludeId : Option Nat)
    (email aadhaar pan : String) : Option String :=
  let others := match excludeId with
    | none => users
    | some i => users.filter (fun u => u.id ≠ i)
  if others.any (fun u => u.email == email) then some "email"
  else if others.any (fun u => u.aadhaar == aadhaar) then some "aadhaar"
  else if others.any (fun u => u.pan == pan) then some "pan"
  else none

/-- `new User(userData); await user.save()` for a fresh document:
the unique indexes are checked, timestamps are set, and the pre-save
hook leaves `version` at its default 0 because the document is new. -/
def saveNewUser (st : Store) (inp : CreateUserInput) (now : Int) :
    Except ServiceError (Store × UserRec) :=
  match indexViolation st.users none inp.email inp.aadhaar inp.pan with
  | some f => .error (.duplicateKey f)
  | none =>
    let u : UserRec :=
      { id := st.nextId, name := inp.name, email := inp.email,
        primaryMobile := inp.primaryMobile, secondaryMobile := inp.secondaryMobile,
        aadhaar := inp.aadhaar, pan := inp.pan, dateOfBirth := inp.dateOfBirth,
        placeOfBirth := inp.placeOfBirth, currentAddress := inp.currentAddress,
        permanentAddress := inp.permanentAddress, isDeleted := false,
        createdAt := now, updatedAt := now, version := 0 }
    .ok ({ users := st.users ++ [u], nextId := st.nextId + 1 }, u)

/-- `UserService.createUser`: pre-check with `findOne` on the `$or`
filter, then the conflict-message chain email → aadhaar → pan over the
single record found, then the physical save. -/
def createUser (st : Store) (inp : CreateUserInput) (now : Int) :
    Except ServiceError (Store × UserRec) :=
  match findOneUniq st inp with
  | some existing =>
    if existing.email == inp.email then .error (.conflict "Email already registered")
    else if existing.aadhaar == inp.aadhaar then .error (.conflict "Aadhaar already registered")
    else if existing.pan == inp.pan then .error (.conflict "PAN already registered")
    else saveNewUser st inp now
  | none => saveNewUser st inp now

/-- A PUT /users/:id request body as the service receives it
(UpdateUserInput of user.validator.ts): each field is `some v` exactly
when the key is present in the patch. -/
structure UpdateUserInput where
  name : Option String := none
  email : Option String := none
  primaryMobile : Option String := none
  secondaryMobile : Option String := none
  dateOfBirth : Option Int := none
  placeOfBirth : Option String := none
  currentAddress : Option String := none
  permanentAddress : Option String := none
  aadhaar : Option String := none
  pan : Option String := none
deriving DecidableEq

/-- `Object.assign(user, updateData)`: copy every key present in the
patch onto the stored document. -/
def applyPatch (upd : UpdateUserInput) (u : UserRec) : UserRec :=
  { u with
    name := upd.name.getD u.name,
    email := upd.email.getD u.email,
    primaryMobile := upd.primaryMobile.getD u.primaryMobile,
    secondaryMobile := match upd.secondaryMobile with
      | none => u.secondaryMobile
      | some v => some v,
    dateOfBirth := upd.dateOfBirth.getD u.dateOfBirth,
    placeOfBirth := upd.placeOfBirth.getD u.placeOfBirth,
    currentAddress := upd.currentAddress.getD u.currentAddress,
    permanentAddress := upd.permanentAddress.getD u.permanentAddress,
    aadhaar := upd.aadhaar.getD u.aadhaar,
    pan := upd.pan.getD u.pan }

/-- `User.findById(id)` — runs as a `findOne`, so the pre-find hook adds
`isDeleted: false`. -/
def findByIdActive (st : Store) (id : Nat) : Option UserRec :=
  findOneDoc { pred := fun u => u.id == id } st.users

/-- `User.findOne({ email })` — pre-find hook applies. -/
def findOneByEmail (st : Store) (e : String) : Option UserRec :=
  findOneDoc { pred := fun u => u.email == e } st.users

/-- `await user.save()` for an existing document: unique indexes are
re-checked against the other documents, the pre-save hook bumps
`version` by 1 (the document is not new), and `updatedAt` is refreshed. -/
def saveExisting (st : Store) (u : UserRec) (now : Int) :
    Except ServiceError (Store × UserRec) :=
  match indexViolation st.users (some u.id) u.email u.aadhaar u.pan with
  | some f => .error (.duplicateKey f)
  | none =>
    let u2 := { u with version := u.version + 1, updatedAt := now }
    .ok ({ st with users := st.users.map (fun v => if v.id = u.id then u2 else v) }, u2)

/-- `UserService.updateUser`: reject any patch carrying the `aadhaar`
or `pan` key before touching the store; then look the user up, re-check
email uniqueness when the email actually changes (truthy check skips an
empty email), patch, and save. -/
def updateUser (st : Store) (userId : Nat) (upd : UpdateUserInput) (now : Int) :
    Except ServiceError (Store × UserRec) :=
  if upd.aadhaar.isSome || upd.pan.isSome then
    .error (.badRequest "Aadhaar and PAN cannot be updated")
  else
    match findByIdActive st userId with
    | none => .error (.notFound "User not found")
    | some user =>
      if user.isDeleted then .error (.notFound "User not found")
      else if (match upd.email with
          | some e => if e ≠ "" && e ≠ user.email then (findOneByEmail st e).isSome else false
          | none => false) then .error (.conflict "Email already registered")
      else saveExisting st (applyPatch upd user) now

/-- `UserService.getUserById`. -/
def getUserById (st : Store) (userId : Nat) : Except ServiceError UserRec :=
  match findByIdActive st userId with
  | none => .error (.notFound "User not found")
  | some u => if u.isDeleted then .error (.notFound "User not found") else .ok u

/-- `UserService.softDeleteUser`: set `isDeleted` and save (never a
physical removal). -/
def softDeleteUser (st : Store) (userId : Nat) (now : Int) :
    Except ServiceError Store :=
  match findByIdActive st userId with
  | none => .error (.notFound "User not found")
  | some u =>
    if u.isDeleted then .error (.notFound "User not found")
    else (saveExisting st { u with isDeleted := true } now).map (fun p => p.1)

/-- A list/search response: page of (masked) records plus metadata. -/
structure ListResult where
  users : List UserRec
  meta : PaginationMeta
deriving DecidableEq

/-- `UserService.getAllUsers`: the page comes from
`User.find().sort().skip().limit()` (hook adds `isDeleted: false`), the
total from `User.countDocuments()` (no hook), each page record is
masked. -/
def getAllUsers (st : Store) (q : ListQuery) : ListResult :=
  let page := parsePage q.page
  let limit := parseLimit q.limit
  let sortStr := parseSortParam q.sort
  let skip := calculateSkip page limit
  let pageUsers := ((applySort sortStr (findDocs {} st.users)).drop skip).take limit
  let total := countDocs {} st.users
  { users := pageUsers.map maskSensitiveData, meta := generateMeta page limit total }

/- ---------- regex model for searchUsers ----------

The search term is passed to `{ $regex: term, $options: 'i' }`
unescaped, so the store's PCRE engine interprets it as a pattern, not a
literal.  The model below implements the PCRE fragment consisting of
literal characters, the `.` wildcard, and the quantifiers `*`, `+`, `?`
applied to the preceding single character.  The remaining PCRE
metacharacters (`[ ] ( ) { } | \ ^ $`) are not modelled; `patSupported`
delimits the modelled fragment and every general statement about search
semantics is confined to it. -/

/-- Model of one single-character pattern atom against one subject
character under `$options: 'i'`: the metacharacter `.` matches anything;
any other character matches itself case-insensitively. -/
def regexCharMatch (p c : Char) : Bool :=
  p == '.' || p.toLower == c.toLower

/-- A parsed pattern atom: a single-character matcher (literal or `.`),
bare or under a quantifier. -/
inductive RAtom where
  | once (p : Char)
  | star (p : Char)
  | plus (p : Char)
  | opt (p : Char)
deriving DecidableEq

/-- Parse a pattern into atoms: `*`, `+`, `?` quantify the preceding
character, every other character is a single-character atom. -/
def parsePat : List Char → List RAtom
  | [] => []
  | [c] => [RAtom.once c]
  | c :: d :: rest =>
    if d = '*' then RAtom.star c :: parsePat rest
    else if d = '+' then RAtom.plus c :: parsePat rest
    else if d = '?' then RAtom.opt c :: parsePat rest
    else RAtom.once c :: parsePat (d :: rest)

/-- Backtracking matcher: does the atom list match a prefix of the
subject?  `a+` is matched as `a` then `a*`.  The `fuel` argument only
bounds the recursion depth so that the definition is structural (and
hence computes inside the kernel); `ratomsMatchPrefix` below always
supplies sufficient fuel, since every recursive call decreases
(subject length, atom count) lexicographically and the atom count never
grows. -/
def ratomsMatchFuel : Nat → List RAtom → List Char → Bool
  | 0, _, _ => false
  | _ + 1, [], _ => true
  | fuel + 1, RAtom.once p :: ps, s =>
    match s with
    | [] => false
    | c :: cs => regexCharMatch p c && ratomsMatchFuel fuel ps cs
  | fuel + 1, RAtom.opt p :: ps, s =>
    ratomsMatchFuel fuel ps s ||
      (match s with
       | [] => false
       | c :: cs => regexCharMatch p c && ratomsMatchFuel fuel ps cs)
  | fuel + 1, RAtom.plus p :: ps, s =>
    (match s with
     | [] => false
     | c :: cs => regexCharMatch p c && ratomsMatchFuel fuel (RAtom.star p :: ps) cs)
  | fuel + 1, RAtom.star p :: ps, s =>
    ratomsMatchFuel fuel ps s ||
      (match s with
       | [] => false
       | c :: cs => regexCharMatch p c && ratomsMatchFuel fuel (RAtom.star p :: ps) cs)

/-- Sufficient fuel for `ratomsMatchFuel` on this input. -/
def ratomsFuel (ats : List RAtom) (s : List Char) : Nat :=
  (s.length + 1) * (ats.length + 1)

/-- Does the parsed pattern match a prefix of the subject? -/
def ratomsMatchPrefix (ats : List RAtom) (s : List Char) : Bool :=
  ratomsMatchFuel (ratomsFuel ats s) ats s

/-- Does the parsed pattern match anywhere in the subject (unanchored,
as `$regex` matching is)? -/
def regexSearchAtoms (ats : List RAtom) : List Char → Bool
  | [] => ratomsMatchPrefix ats []
  | c :: cs => ratomsMatchPrefix ats (c :: cs) || regexSearchAtoms ats cs

/-- `{ $regex: term, $options: 'i' }` applied to a string field. -/
def regexTestCI (pat s : String) : Bool :=
  regexSearchAtoms (parsePat pat.data) s.data

/-- The full PCRE metacharacter set, for stating when a term is free of
regex operators. -/
def regexMetaChars : List Char :=
  ['.', '*', '+', '?', '[', ']', '(', ')', '{', '}', '|', '\x5c', '^', '$']

/-- The three quantifier characters. -/
def isQuantChar (c : Char) : Bool :=
  c == '*' || c == '+' || c == '?'

/-- Is the pattern inside the modelled fragment: only literal
characters, `.`, and quantifiers each following a quantifiable atom —
no other PCRE metacharacter?  The Boolean argument records whether a
quantifiable atom immediately precedes. -/
def patOk : Bool → List Char → Bool
  | _, [] => true
  | afterAtom, c :: rest =>
    if isQuantChar c then afterAtom && patOk false rest
    else !(['[', ']', '(', ')', '{', '}', '|', '\x5c', '^', '$'].contains c) &&
      patOk true rest

/-- A search term the model covers faithfully. -/
def patSupported (pat : String) : Bool :=
  patOk false pat.data

/-- Case-insensitive literal character equality. -/
def charEqCI (p c : Char) : Bool :=
  p.toLower == c.toLower

/-- Is `pat` literally a prefix of the subject, case-insensitively? -/
def substrPrefix : List Char → List Char → Bool
  | [], _ => true
  | _ :: _, [] => false
  | p :: ps, c :: cs => charEqCI p c && substrPrefix ps cs

/-- Literal case-insensitive substring search. -/
def substrSearch (pat : List Char) : List Char → Bool
  | [] => substrPrefix pat []
  | c :: cs => substrPrefix pat (c :: cs) || substrSearch pat cs

/-- Case-insensitive literal substring containment — the relation the
spec's words describe ("case-insensitive substring match", term treated
literally). -/
def containsCI (pat s : String) : Bool :=
  substrSearch pat.data s.data

/-- The `$or` clause of the search filter: regex match on name or
email. -/
def searchFilterPred (term : String) (u : UserRec) : Bool :=
  regexTestCI term u.name || regexTestCI term u.email

/-- `UserService.searchUsers`: filter = `{ isDeleted: false, $or: [name
regex, email regex] }` for both the page fetch and the count; no sort
stage; page records are masked. -/
def searchUsers (st : Store) (term : String) (q : ListQuery) : ListResult :=
  let page := parsePage q.page
  let limit := parseLimit q.limit
  let skip := calculateSkip page limit
  let f : QueryFilter := { isDeletedEq := some false, pred := searchFilterPred term }
  let pageUsers := ((findDocs f st.users).drop skip).take limit
  let total := countDocs f st.users
  { users := pageUsers.map maskSensitiveData, meta := generateMeta page limit total }

/- ---------- user.controller.ts: masking at the boundary ---------- -/

/-- POST /users: the controller masks the created record before it
leaves the boundary. -/
def createRecordApi (st : Store) (inp : CreateUserInput) (now : Int) :
    Except ServiceError (Store × UserRec) :=
  (createUser st inp now).map (fun p => (p.1, maskSensitiveData p.2))

/-- PUT /users/:id: the controller masks the updated record. -/
def updateRecordApi (st : Store) (userId : Nat) (upd : UpdateUserInput) (now : Int) :
    Except ServiceError (Store × UserRec) :=
  (updateUser st userId upd now).map (fun p => (p.1, maskSensitiveData p.2))

/-- GET /users/:id: the controller masks the fetched record. -/
def getRecordApi (st : Store) (userId : Nat) : Except ServiceError UserRec :=
  (getUserById st userId).map maskSensitiveData

/- ---------- concrete fixtures used by counterexamples and witnesses ---------- -/

/-- A live (non-deleted) stored user. -/
def uAlice : UserRec :=
  { id := 1, name := "Alice Active", email := "alice@example.com",
    primaryMobile := "9876543210", secondaryMobile := none,
    aadhaar := "111122223333", pan := "ABCDE1234F", dateOfBirth := 0,
    placeOfBirth := "Mumbai", currentAddress := "1 A St", permanentAddress := "2 B St",
    isDeleted := false, createdAt := 0, updatedAt := 0, version := 0 }

/-- A soft-deleted stored user whose identity values stay in the store. -/
def uBobDeleted : UserRec :=
  { id := 2, name := "Bob Gone", email := "bob@example.com",
    primaryMobile := "9876543211", secondaryMobile := none,
    aadhaar := "444455556666", pan := "FGHIJ5678K", dateOfBirth := 0,
    placeOfBirth := "Delhi", currentAddress := "3 C St", permanentAddress := "4 D St",
    isDeleted := true, createdAt := 1, updatedAt := 2, version := 1 }

/-- "Jane Smith", used by the search claims. -/
def uJane : UserRec :=
  { id := 3, name := "Jane Smith", email := "jane.smith@mail.org",
    primaryMobile := "9876543212", secondaryMobile := none,
    aadhaar := "555566667777", pan := "KLMNO6789P", dateOfBirth := 0,
    placeOfBirth := "Chennai", currentAddress := "5 E St", permanentAddress := "6 F St",
    isDeleted := false, createdAt := 2, updatedAt := 2, version := 0 }

/-- "John Doe", used by the search claims. -/
def uJohn : UserRec :=
  { id := 4, name := "John Doe", email := "john.doe@mail.org",
    primaryMobile := "9876543213", secondaryMobile := none,
    aadhaar := "888899990000", pan := "QRSTU7890V", dateOfBirth := 0,
    placeOfBirth := "Kolkata", currentAddress := "7 G St", permanentAddress := "8 H St",
    isDeleted := false, createdAt := 3, updatedAt := 3, version := 0 }

/-- A live user colliding with `inpTwoCollisions` on `pan`. -/
def uCarol : UserRec :=
  { id := 5, name := "Carol Live", email := "carol@example.com",
    primaryMobile := "9876543214", secondaryMobile := none,
    aadhaar := "121212121212", pan := "PQRST3456U", dateOfBirth := 0,
    placeOfBirth := "Goa", currentAddress := "9 I St", permanentAddress := "10 J St",
    isDeleted := false, createdAt := 4, updatedAt := 4, version := 0 }

/-- A live user colliding with `inpTwoCollisions` on `email`. -/
def uDave : UserRec :=
  { id := 6, name := "Dave Live", email := "dave@example.com",
    primaryMobile := "9876543215", secondaryMobile := none,
    aadhaar := "343434343434", pan := "VWXYZ1234A", dateOfBirth := 0,
    placeOfBirth := "Surat", currentAddress := "11 K St", permanentAddress := "12 L St",
    isDeleted := false, createdAt := 5, updatedAt := 5, version := 0 }

/-- A create payload reusing the soft-deleted `uBobDeleted`'s email,
fresh aadhaar and pan. -/
def inpReusesDeletedEmail : CreateUserInput :=
  { name := "Robert New", email := "bob@example.com",
    primaryMobile := "9876500000", secondaryMobile := none,
    aadhaar := "777788889999", pan := "LMNOP9012Q", dateOfBirth := 0,
    placeOfBirth := "Pune", currentAddress := "13 M St", permanentAddress := "14 N St" }

/-- A create payload colliding with `uDave` on email and with `uCarol`
on pan (two collisions, on different records). -/
def inpTwoCollisions : CreateUserInput :=
  { name := "Evil Twin", email := "dave@example.com",
    primaryMobile := "9876500001", secondaryMobile := none,
    aadhaar := "565656565656", pan := "PQRST3456U", dateOfBirth := 0,
    placeOfBirth := "Agra", currentAddress := "15 O St", permanentAddress := "16 P St" }

/-- The record stored after soft-deleting `uAlice` at time 11. -/
def uAliceGone : UserRec :=
  { uAlice with isDeleted := true, version := uAlice.version + 1, updatedAt := 11 }

/-- The store produced by soft-deleting `uAlice` at time 11. -/
def stAliceDeleted : Store :=
  { users := [uAliceGone], nextId := 2 }

/-- The record created from `inpReusesDeletedEmail` with id 7 at time 21. -/
def uRobertNew : UserRec :=
  { id := 7, name := "Robert New", email := "bob@example.com",
    primaryMobile := "9876500000", secondaryMobile := none,
    aadhaar := "777788889999", pan := "LMNOP9012Q", dateOfBirth := 0,
    placeOfBirth := "Pune", currentAddress := "13 M St", permanentAddress := "14 N St",
    isDeleted := false, createdAt := 21, updatedAt := 21, version := 0 }

/-- A patch renaming a user. -/
def patchRename : UpdateUserInput :=
  { name := some "Alice Renamed" }

/-- `uAlice` after `patchRename` is applied and saved at time 12. -/
def uAliceRenamed : UserRec :=
  { uAlice with name := "Alice Renamed", version := uAlice.version + 1, updatedAt := 12 }

/-- A patch that carries the `aadhaar` key with the very value already
stored for `uAlice`. -/
def patchSameAadhaar : UpdateUserInput :=
  { aadhaar := some "111122223333" }

/-- A patch that carries the `pan` key. -/
def patchWithPan : UpdateUserInput :=
  { pan := some "ZZZZZ9999Z" }

/-- C1: the code at a failing input.  With one live and one soft-deleted
record, the list page (find — soft-delete hook applies) holds 1 record,
but the reported `total` (countDocuments — hook does not apply) is 2;
a count under the page's own filter would be 1. -/
theorem c1_total_not_under_page_filter :
    (getAllUsers { users := [uAlice, uBobDeleted], nextId := 3 } {}).users.length = 1 ∧
    (getAllUsers { users := [uAlice, uBobDeleted], nextId := 3 } {}).meta.total = 2 ∧
    (findDocs {} [uAlice, uBobDeleted]).length = 1 := by
  refine ⟨rfl, rfl, rfl⟩

/-- C3 counterexample: with only the soft-deleted `uBobDeleted` in the
store, the create-time pre-check lookup (a `findOne`, hence filtered to
`isDeleted: false` by the hook) sees nothing although the payload reuses
Bob's email, and the create fails with the store's duplicate-key
rejection, not with a service-level ConflictError. -/
theorem c3_counterexample :
    findOneUniq { users := [uBobDeleted], nextId := 3 } inpReusesDeletedEmail = none ∧
    createUser { users := [uBobDeleted], nextId := 3 } inpReusesDeletedEmail 5 =
      .error (.duplicateKey "email") := by
  refine ⟨rfl, rfl⟩

/-- C4 counterexample: the payload collides on email with `uDave` and on
pan with `uCarol`; the pre-check returns the first colliding record in
store order (`uCarol`, a pan match), so the reported conflict is PAN —
not email, the highest-priority colliding field. -/
theorem c4_counterexample :
    uDave.email = inpTwoCollisions.email ∧ uDave.isDeleted = false ∧
    createUser { users := [uCarol, uDave], nextId := 7 } inpTwoCollisions 9 =
      .error (.conflict "PAN already registered") := by
  refine ⟨rfl, rfl, rfl⟩

/-- C8 counterexample: the term "j..e" is not a literal substring of
Jane's name or email (case-insensitively), yet the search returns her
record, because the term is interpreted as a regular expression in which
`.` matches any character. -/
theorem c8_counterexample :
    containsCI "j..e" uJane.name = false ∧
    containsCI "j..e" uJane.email = false ∧
    (searchUsers { users := [uJane], nextId := 5 } "j..e" {}).users =
      [maskSensitiveData uJane] := by
  refine ⟨rfl, rfl, rfl⟩

/- ---------- shared helper lemmas ---------- -/

/-- A patch carrying the `aadhaar` or `pan` key makes `updateUser` fail
with the immutability rejection, for every store, id and time. -/
theorem updateUser_immutable_guard (st : Store) (userId : Nat)
    (upd : UpdateUserInput) (now : Int)
    (h : (upd.aadhaar.isSome || upd.pan.isSome) = true) :
    updateUser st userId upd now =
      .error (.badRequest "Aadhaar and PAN cannot be updated") := by
  unfold updateUser
  simp [h]

/-- C5: any update patch that contains the `aadhaar` or `pan` key fails
with the immutability rejection (a bad-request outcome — the spec's
ImmutableFieldError), whatever value the key carries (in particular the
stored value itself) and for every store whatsoever — so no store access
can influence the result. -/
theorem c5_immutable_fields_rejected (st : Store) (userId : Nat)
    (upd : UpdateUserInput) (now : Int)
    (h : (upd.aadhaar.isSome || upd.pan.isSome) = true) :
    updateUser st userId upd now =
      .error (.badRequest "Aadhaar and PAN cannot be updated") :=
  updateUser_immutable_guard st userId upd now h

/-- C5 witness: patching `uAlice` with her own stored aadhaar value is
still rejected. -/
theorem c5_witness :
    (patchSameAadhaar.aadhaar.isSome || patchSameAadhaar.pan.isSome) = true ∧
    patchSameAadhaar.aadhaar = some uAlice.aadhaar ∧
    updateUser ⟨[uAlice], 2⟩ 1 patchSameAadhaar 7 =
      .error (.badRequest "Aadhaar and PAN cannot be updated") :=
  ⟨rfl, rfl, c5_immutable_fields_rejected ⟨[uAlice], 2⟩ 1 patchSameAadhaar 7 rfl⟩

/-- C9: the immutability check runs before the store lookup, so even
when the id has no live record (absent or soft-deleted) a patch carrying
the `aadhaar` or `pan` key is rejected as immutable, not as not-found. -/
theorem c9_immutable_beats_not_found (st : Store) (userId : Nat)
    (upd : UpdateUserInput) (now : Int)
    (h : (upd.aadhaar.isSome || upd.pan.isSome) = true)
    (_hgone : ∀ u ∈ st.users, u.id = userId → u.isDeleted = true) :
    updateUser st userId upd now =
      .error (.badRequest "Aadhaar and PAN cannot be updated") ∧
    updateUser st userId upd now ≠ .error (.notFound "User not found") := by
  have heq := updateUser_immutable_guard st userId upd now h
  exact ⟨heq, by rw [heq]; intro hc; exact ServiceError.noConfusion (Except.error.inj hc)⟩

/-- C9 witness: a pan-carrying patch against an id that only a
soft-deleted record has is rejected as immutable, not as not-found. -/
theorem c9_witness :
    updateUser ⟨[uBobDeleted], 3⟩ 2 patchWithPan 7 =
      .error (.badRequest "Aadhaar and PAN cannot be updated") ∧
    updateUser ⟨[uBobDeleted], 3⟩ 2 patchWithPan 7 ≠
      .error (.notFound "User not found") :=
  c9_immutable_beats_not_found ⟨[uBobDeleted], 3⟩ 2 patchWithPan 7 rfl (by decide)

/-- When every record with the given id is soft-deleted (in particular
when no record has the id), the hook-filtered `findById` sees nothing. -/
theorem findByIdActive_eq_none (st : Store) (userId : Nat)
    (hgone : ∀ u ∈ st.users, u.id = userId → u.isDeleted = true) :
    findByIdActive st userId = none := by
  unfold findByIdActive findOneDoc
  rw [List.find?_eq_none]
  intro u hu hp
  unfold matchesFilter preFindHook at hp
  simp only [Bool.and_eq_true, beq_iff_eq] at hp
  have := hgone u hu hp.2
  rw [this] at hp
  exact Bool.false_ne_true hp.1.symm

/-- C6: reading or soft-deleting an id whose record is absent or already
soft-deleted reports not-found (never silent success), and a successful
soft delete is never a physical removal: the store keeps the same number
of records and every stored id survives. -/
theorem c6_soft_delete_semantics :
    (∀ st : Store, ∀ userId : Nat, ∀ now : Int,
      (∀ u ∈ st.users, u.id = userId → u.isDeleted = true) →
        getUserById st userId = .error (.notFound "User not found") ∧
        softDeleteUser st userId now = .error (.notFound "User not found")) ∧
    (∀ st : Store, ∀ userId : Nat, ∀ now : Int, ∀ st' : Store,
      softDeleteUser st userId now = .ok st' →
        st'.users.length = st.users.length ∧
        ∀ u ∈ st.users, ∃ v ∈ st'.users, v.id = u.id) := by
  constructor
  · intro st userId now hgone
    have hn := findByIdActive_eq_none st userId hgone
    constructor
    · unfold getUserById
      rw [hn]
    · unfold softDeleteUser
      rw [hn]
  · intro st userId now st' h
    unfold softDeleteUser at h
    split at h
    · exact absurd h (by simp)
    · rename_i u hf
      split at h
      · exact absurd h (by simp)
      · unfold saveExisting at h
        split at h
        · exact absurd h (by simp [Except.map])
        · simp only [Except.map, Except.ok.injEq] at h
          subst h
          refine ⟨by simp, ?_⟩
          intro w hw
          refine ⟨_, List.mem_map_of_mem _ hw, ?_⟩
          by_cases hid : w.id = u.id
          · simp [hid]
          · simp [hid]

/-- C6 witness: soft-deleting or reading the soft-deleted `uBobDeleted`
reports not-found; soft-deleting `uAlice` keeps one record with her id. -/
theorem c6_witness :
    (getUserById ⟨[uBobDeleted], 3⟩ 2 = .error (.notFound "User not found") ∧
     softDeleteUser ⟨[uBobDeleted], 3⟩ 2 11 = .error (.notFound "User not found")) ∧
    (stAliceDeleted.users.length = (⟨[uAlice], 2⟩ : Store).users.length ∧
     ∀ u ∈ (⟨[uAlice], 2⟩ : Store).users, ∃ v ∈ stAliceDeleted.users, v.id = u.id) :=
  ⟨c6_soft_delete_semantics.1 ⟨[uBobDeleted], 3⟩ 2 11 (by decide),
   c6_soft_delete_semantics.2 ⟨[uAlice], 2⟩ 1 11 stAliceDeleted rfl⟩

/-- Inversion of a successful fresh save: the stored record carries
`version = 0` and the creation timestamps, and is appended to the
collection. -/
theorem saveNewUser_ok (st : Store) (inp : CreateUserInput) (now : Int)
    (st' : Store) (r : UserRec) (h : saveNewUser st inp now = .ok (st', r)) :
    r.version = 0 ∧ r.createdAt = now ∧ r.updatedAt = now ∧
    st'.users = st.users ++ [r] := by
  unfold saveNewUser at h
  split at h
  · exact absurd h (by simp)
  · simp only [Except.ok.injEq, Prod.mk.injEq] at h
    obtain ⟨h1, h2⟩ := h
    subst h2
    subst h1
    exact ⟨rfl, rfl, rfl, rfl⟩

/-- Inversion of a successful create. -/
theorem createUser_ok (st : Store) (inp : CreateUserInput) (now : Int)
    (st' : Store) (r : UserRec) (h : createUser st inp now = .ok (st', r)) :
    r.version = 0 ∧ r.createdAt = now ∧ r.updatedAt = now ∧
    st'.users = st.users ++ [r] := by
  unfold createUser at h
  split at h
  · split_ifs at h with h1 h2 h3
    exact saveNewUser_ok st inp now st' r h
  · exact saveNewUser_ok st inp now st' r h

/-- Inversion of a successful save of an existing record: `version`
bumps by exactly 1, `updatedAt` refreshes, and the collection is the
old one with every record of that id replaced. -/
theorem saveExisting_ok (st : Store) (u : UserRec) (now : Int)
    (st' : Store) (r : UserRec) (h : saveExisting st u now = .ok (st', r)) :
    r = { u with version := u.version + 1, updatedAt := now } ∧
    st'.users = st.users.map (fun v => if v.id = u.id then r else v) ∧
    st'.nextId = st.nextId := by
  unfold saveExisting at h
  split at h
  · exact absurd h (by simp)
  · simp only [Except.ok.injEq, Prod.mk.injEq] at h
    obtain ⟨h1, h2⟩ := h
    subst h2
    subst h1
    exact ⟨rfl, rfl, rfl⟩

/-- Inversion of a successful update: the patch carried neither
`aadhaar` nor `pan`, the target was a live record with the requested id,
and the result is that record patched, version-bumped and
timestamp-refreshed, written back in place. -/
theorem updateUser_ok_spec (st : Store) (userId : Nat) (upd : UpdateUserInput)
    (now : Int) (st' : Store) (r : UserRec)
    (h : updateUser st userId upd now = .ok (st', r)) :
    upd.aadhaar = none ∧ upd.pan = none ∧
    ∃ u, u ∈ st.users ∧ u.id = userId ∧ u.isDeleted = false ∧
      r = { applyPatch upd u with version := u.version + 1, updatedAt := now } ∧
      st'.users = st.users.map (fun v => if v.id = u.id then r else v) := by
  unfold updateUser at h
  split at h
  · exact absurd h (by simp)
  · rename_i hguard
    have hna : upd.aadhaar = none := by
      cases hA : upd.aadhaar with
      | none => rfl
      | some v => rw [hA] at hguard; simp at hguard
    have hnp : upd.pan = none := by
      cases hP : upd.pan with
      | none => rfl
      | some v => rw [hP] at hguard; simp at hguard
    refine ⟨hna, hnp, ?_⟩
    split at h
    · exact absurd h (by simp)
    · rename_i user hf
      unfold findByIdActive findOneDoc at hf
      have hmem := List.mem_of_find?_eq_some hf
      have hpred := List.find?_some hf
      unfold matchesFilter preFindHook at hpred
      simp only [Bool.and_eq_true, beq_iff_eq] at hpred
      split at h
      · exact absurd h (by simp)
      · split at h
        · exact absurd h (by simp)
        · obtain ⟨hr, hu, _⟩ := saveExisting_ok st (applyPatch upd user) now st' r h
          exact ⟨user, hmem, hpred.2, hpred.1, hr, hu⟩

/-- `applyPatch` never touches `version`. -/
theorem applyPatch_version (upd : UpdateUserInput) (u : UserRec) :
    (applyPatch upd u).version = u.version := rfl

/-- `applyPatch` never touches `id`. -/
theorem applyPatch_id (upd : UpdateUserInput) (u : UserRec) :
    (applyPatch upd u).id = u.id := rfl

/-- Inversion of a successful soft delete: the target was a live record
with the requested id, and the store is the old one with that record
flagged deleted, version-bumped, timestamp-refreshed, in place. -/
theorem softDeleteUser_ok (st : Store) (userId : Nat) (now : Int) (st' : Store)
    (h : softDeleteUser st userId now = .ok st') :
    ∃ u, u ∈ st.users ∧ u.id = userId ∧ u.isDeleted = false ∧
      st'.users = st.users.map (fun v => if v.id = u.id then
        { u with isDeleted := true, version := u.version + 1, updatedAt := now } else v) := by
  unfold softDeleteUser at h
  split at h
  · exact absurd h (by simp)
  · rename_i u hf
    unfold findByIdActive findOneDoc at hf
    have hmem := List.mem_of_find?_eq_some hf
    have hpred := List.find?_some hf
    unfold matchesFilter preFindHook at hpred
    simp only [Bool.and_eq_true, beq_iff_eq] at hpred
    split at h
    · exact absurd h (by simp)
    · cases hs : saveExisting st { u with isDeleted := true } now with
      | error e => rw [hs] at h; exact absurd h (by simp [Except.map])
      | ok p =>
        rw [hs] at h
        simp only [Except.map, Except.ok.injEq] at h
        subst h
        obtain ⟨hr, hu, _⟩ :=
          saveExisting_ok st { u with isDeleted := true } now p.1 p.2 (by rw [hs])
        refine ⟨u, hmem, hpred.2, hpred.1, ?_⟩
        rw [hu, hr]

/-- Replacing every record of id `i` in a list puts the replacement in
the image whenever some record of id `i` was present. -/
theorem mem_map_replace (l : List UserRec) (i : Nat) (r : UserRec) (u : UserRec)
    (hu : u ∈ l) (hid : u.id = i) :
    r ∈ l.map (fun v => if v.id = i then r else v) := by
  have h := List.mem_map_of_mem (fun v => if v.id = i then r else v) hu
  simpa [hid] using h

/-- Replacing every record of id `i` leaves records of other ids in the
image untouched. -/
theorem mem_map_replace_other (l : List UserRec) (i : Nat) (r : UserRec) (v : UserRec)
    (hv : v ∈ l) (hne : v.id ≠ i) :
    v ∈ l.map (fun w => if w.id = i then r else w) := by
  have h := List.mem_map_of_mem (fun w => if w.id = i then r else w) hv
  simpa [hne] using h

/-- C7: `version` is 0 on the record produced by the creation write, and
every subsequent successful save — a field patch (empty or not) or the
soft delete — increments the target record's `version` by exactly 1 and
leaves every other record untouched. -/
theorem c7_version_discipline :
    (∀ st : Store, ∀ inp : CreateUserInput, ∀ now : Int, ∀ st' : Store, ∀ r : UserRec,
      createUser st inp now = .ok (st', r) → r.version = 0 ∧ r ∈ st'.users) ∧
    (∀ st : Store, ∀ userId : Nat, ∀ upd : UpdateUserInput, ∀ now : Int,
        ∀ st' : Store, ∀ r : UserRec,
      updateUser st userId upd now = .ok (st', r) →
        ∃ u, u ∈ st.users ∧ u.id = userId ∧ r.version = u.version + 1 ∧
          r ∈ st'.users ∧ ∀ v ∈ st.users, v.id ≠ userId → v ∈ st'.users) ∧
    (∀ st : Store, ∀ userId : Nat, ∀ now : Int, ∀ st' : Store,
      softDeleteUser st userId now = .ok st' →
        ∃ u, u ∈ st.users ∧ u.id = userId ∧
          { u with isDeleted := true, version := u.version + 1, updatedAt := now } ∈ st'.users ∧
          ∀ v ∈ st.users, v.id ≠ userId → v ∈ st'.users) := by
  refine ⟨?_, ?_, ?_⟩
  · intro st inp now st' r h
    obtain ⟨hv, _, _, happ⟩ := createUser_ok st inp now st' r h
    exact ⟨hv, by simp [happ]⟩
  · intro st userId upd now st' r h
    obtain ⟨-, -, u, hmem, hid, -, hr, husers⟩ := updateUser_ok_spec st userId upd now st' r h
    refine ⟨u, hmem, hid, by rw [hr], ?_, ?_⟩
    · rw [husers]
      exact mem_map_replace st.users u.id r u hmem rfl
    · intro v hv hne
      rw [husers]
      exact mem_map_replace_other st.users u.id r v hv (fun hc => hne (hid ▸ hc))
  · intro st userId now st' h
    obtain ⟨u, hmem, hid, -, husers⟩ := softDeleteUser_ok st userId now st' h
    refine ⟨u, hmem, hid, ?_, ?_⟩
    · rw [husers]
      exact mem_map_replace st.users u.id _ u hmem rfl
    · intro v hv hne
      rw [husers]
      exact mem_map_replace_other st.users u.id _ v hv (fun hc => hne (hid ▸ hc))

/-- C7 witness: creating Robert yields version 0; renaming Alice bumps
her version to 1; soft-deleting Alice bumps it too. -/
theorem c7_witness :
    (uRobertNew.version = 0 ∧ uRobertNew ∈ (⟨[uAlice, uRobertNew], 8⟩ : Store).users) ∧
    (∃ u, u ∈ (⟨[uAlice], 2⟩ : Store).users ∧ u.id = 1 ∧
      uAliceRenamed.version = u.version + 1 ∧
      uAliceRenamed ∈ (⟨[uAliceRenamed], 2⟩ : Store).users ∧
      ∀ v ∈ (⟨[uAlice], 2⟩ : Store).users, v.id ≠ 1 → v ∈ (⟨[uAliceRenamed], 2⟩ : Store).users) ∧
    (∃ u, u ∈ (⟨[uAlice], 2⟩ : Store).users ∧ u.id = 1 ∧
      { u with isDeleted := true, version := u.version + 1, updatedAt := 11 } ∈ stAliceDeleted.users ∧
      ∀ v ∈ (⟨[uAlice], 2⟩ : Store).users, v.id ≠ 1 → v ∈ stAliceDeleted.users) :=
  ⟨c7_version_discipline.1 ⟨[uAlice], 7⟩ inpReusesDeletedEmail 21 ⟨[uAlice, uRobertNew], 8⟩
      uRobertNew rfl,
   c7_version_discipline.2.1 ⟨[uAlice], 2⟩ 1 patchRename 12 ⟨[uAliceRenamed], 2⟩
      uAliceRenamed rfl,
   c7_version_discipline.2.2 ⟨[uAlice], 2⟩ 1 11 stAliceDeleted rfl⟩

/-- C10: a successful update changes only the fields present in the
patch plus `version` and `updatedAt`; the id, the identity documents,
`isDeleted` and `createdAt` are untouched, fields present in the patch
take exactly the patched value, absent fields keep their stored value,
and untouched records are carried over unchanged. -/
theorem c10_update_frame :
    ∀ st : Store, ∀ userId : Nat, ∀ upd : UpdateUserInput, ∀ now : Int,
      ∀ st' : Store, ∀ r : UserRec,
      updateUser st userId upd now = .ok (st', r) →
      ∃ u, u ∈ st.users ∧ u.id = userId ∧ u.isDeleted = false ∧
        r.id = u.id ∧ r.aadhaar = u.aadhaar ∧ r.pan = u.pan ∧
        r.isDeleted = u.isDeleted ∧ r.createdAt = u.createdAt ∧
        r.name = upd.name.getD u.name ∧
        r.email = upd.email.getD u.email ∧
        r.primaryMobile = upd.primaryMobile.getD u.primaryMobile ∧
        r.secondaryMobile = (match upd.secondaryMobile with
          | none => u.secondaryMobile
          | some v => some v) ∧
        r.dateOfBirth = upd.dateOfBirth.getD u.dateOfBirth ∧
        r.placeOfBirth = upd.placeOfBirth.getD u.placeOfBirth ∧
        r.currentAddress = upd.currentAddress.getD u.currentAddress ∧
        r.permanentAddress = upd.permanentAddress.getD u.permanentAddress ∧
        r.version = u.version + 1 ∧ r.updatedAt = now ∧
        (∀ v ∈ st.users, v.id ≠ userId → v ∈ st'.users) := by
  intro st userId upd now st' r h
  obtain ⟨hna, hnp, u, hmem, hid, hdel, hr, husers⟩ :=
    updateUser_ok_spec st userId upd now st' r h
  subst hr
  refine ⟨u, hmem, hid, hdel, rfl, ?_, ?_, rfl, rfl, rfl, rfl, rfl, rfl, rfl, rfl,
    rfl, rfl, rfl, rfl, ?_⟩
  · show (applyPatch upd u).aadhaar = u.aadhaar
    rw [show (applyPatch upd u).aadhaar = upd.aadhaar.getD u.aadhaar from rfl, hna]
    rfl
  · show (applyPatch upd u).pan = u.pan
    rw [show (applyPatch upd u).pan = upd.pan.getD u.pan from rfl, hnp]
    rfl
  · intro v hv hne
    rw [husers]
    exact mem_map_replace_other st.users u.id _ v hv (fun hc => hne (hid ▸ hc))

/-- C10 witness: renaming Alice changes exactly `name`, `version` and
`updatedAt`. -/
theorem c10_witness :
    ∃ u, u ∈ (⟨[uAlice], 2⟩ : Store).users ∧ u.id = 1 ∧ u.isDeleted = false ∧
      uAliceRenamed.id = u.id ∧ uAliceRenamed.aadhaar = u.aadhaar ∧
      uAliceRenamed.pan = u.pan ∧
      uAliceRenamed.isDeleted = u.isDeleted ∧ uAliceRenamed.createdAt = u.createdAt ∧
      uAliceRenamed.name = patchRename.name.getD u.name ∧
      uAliceRenamed.email = patchRename.email.getD u.email ∧
      uAliceRenamed.primaryMobile = patchRename.primaryMobile.getD u.primaryMobile ∧
      uAliceRenamed.secondaryMobile = (match patchRename.secondaryMobile with
        | none => u.secondaryMobile
        | some v => some v) ∧
      uAliceRenamed.dateOfBirth = patchRename.dateOfBirth.getD u.dateOfBirth ∧
      uAliceRenamed.placeOfBirth = patchRename.placeOfBirth.getD u.placeOfBirth ∧
      uAliceRenamed.currentAddress = patchRename.currentAddress.getD u.currentAddress ∧
      uAliceRenamed.permanentAddress = patchRename.permanentAddress.getD u.permanentAddress ∧
      uAliceRenamed.version = u.version + 1 ∧ uAliceRenamed.updatedAt = 12 ∧
      (∀ v ∈ (⟨[uAlice], 2⟩ : Store).users, v.id ≠ 1 →
        v ∈ (⟨[uAliceRenamed], 2⟩ : Store).users) :=
  c10_update_frame ⟨[uAlice], 2⟩ 1 patchRename 12 ⟨[uAliceRenamed], 2⟩ uAliceRenamed rfl

/-- Insertion keeps list membership (right-to-left direction suffices
here). -/
theorem mem_of_mem_insertSorted (le : UserRec → UserRec → Bool) (x y : UserRec) :
    ∀ l : List UserRec, y ∈ insertSorted le x l → y = x ∨ y ∈ l := by
  intro l
  induction l with
  | nil =>
    intro h
    simp only [insertSorted, List.mem_singleton] at h
    exact Or.inl h
  | cons z zs ih =>
    intro h
    by_cases hc : le x z
    · rw [insertSorted, if_pos hc] at h
      rcases List.mem_cons.mp h with h1 | h2
      · exact Or.inl h1
      · exact Or.inr h2
    · rw [insertSorted, if_neg hc] at h
      rcases List.mem_cons.mp h with h1 | h2
      · exact Or.inr (h1 ▸ List.mem_cons_self z zs)
      · rcases ih h2 with h3 | h4
        · exact Or.inl h3
        · exact Or.inr (List.mem_cons_of_mem z h4)

/-- The sort stage only permutes: membership is preserved. -/
theorem mem_of_mem_insertionSort (le : UserRec → UserRec → Bool) (y : UserRec) :
    ∀ l : List UserRec, y ∈ insertionSort le l → y ∈ l := by
  intro l
  induction l with
  | nil => intro h; simp only [insertionSort] at h; exact h
  | cons x xs ih =>
    intro h
    simp only [insertionSort] at h
    rcases mem_of_mem_insertSorted le x y (insertionSort le xs) h with h1 | h2
    · exact h1 ▸ List.mem_cons_self x xs
    · exact List.mem_cons_of_mem x (ih h2)

/-- Every record in a list page is drawn from the store (take ∘ drop ∘
sort ∘ filter never invents records). -/
theorem getAllUsers_users_sourced (st : Store) (q : ListQuery) :
    ∃ l : List UserRec, (∀ u ∈ l, u ∈ st.users) ∧
      (getAllUsers st q).users = l.map maskSensitiveData := by
  refine ⟨((applySort (parseSortParam q.sort) (findDocs {} st.users)).drop
    (calculateSkip (parsePage q.page) (parseLimit q.limit))).take (parseLimit q.limit),
    ?_, rfl⟩
  intro u hu
  have h1 := List.mem_of_mem_take hu
  have h2 := List.mem_of_mem_drop h1
  unfold applySort at h2
  have h3 := mem_of_mem_insertionSort _ u _ h2
  unfold findDocs at h3
  exact (List.mem_filter.mp h3).1

/-- Every record in a search page is drawn from the store. -/
theorem searchUsers_users_sourced (st : Store) (term : String) (q : ListQuery) :
    ∃ l : List UserRec, (∀ u ∈ l, u ∈ st.users) ∧
      (searchUsers st term q).users = l.map maskSensitiveData := by
  refine ⟨((findDocs { isDeletedEq := some false, pred := searchFilterPred term }
    st.users).drop (calculateSkip (parsePage q.page) (parseLimit q.limit))).take
    (parseLimit q.limit), ?_, rfl⟩
  intro u hu
  have h1 := List.mem_of_mem_take hu
  have h2 := List.mem_of_mem_drop h1
  unfold findDocs at h2
  exact (List.mem_filter.mp h2).1

/-- A successfully fetched record was in the store. -/
theorem getUserById_ok_mem (st : Store) (userId : Nat) (u : UserRec)
    (h : getUserById st userId = .ok u) : u ∈ st.users := by
  unfold getUserById at h
  split at h
  · exact absurd h (by simp)
  · rename_i u0 hf
    unfold findByIdActive findOneDoc at hf
    split at h
    · exact absurd h (by simp)
    · simp only [Except.ok.injEq] at h
      subst h
      exact List.mem_of_find?_eq_some hf

/-- C2: the mask replaces `aadhaar` and `pan` by their fixed prefixes
plus the last 4 characters of the stored value (for the non-empty values
the validated pipeline stores) and passes every other field through
unchanged; and every record leaving the boundary — via create, update,
get-by-id, list, or search — is the mask of a stored record, so no path
returns the raw identity documents. -/
theorem c2_masking_everywhere :
    (∀ u : UserRec, u.aadhaar ≠ "" → u.pan ≠ "" →
      (maskSensitiveData u).aadhaar = "XXXX-XXXX-" ++ sliceLast 4 u.aadhaar ∧
      (maskSensitiveData u).pan = "XXXXX" ++ sliceLast 4 u.pan) ∧
    (∀ u : UserRec,
      (maskSensitiveData u).id = u.id ∧
      (maskSensitiveData u).name = u.name ∧
      (maskSensitiveData u).email = u.email ∧
      (maskSensitiveData u).primaryMobile = u.primaryMobile ∧
      (maskSensitiveData u).secondaryMobile = u.secondaryMobile ∧
      (maskSensitiveData u).dateOfBirth = u.dateOfBirth ∧
      (maskSensitiveData u).placeOfBirth = u.placeOfBirth ∧
      (maskSensitiveData u).currentAddress = u.currentAddress ∧
      (maskSensitiveData u).permanentAddress = u.permanentAddress ∧
      (maskSensitiveData u).isDeleted = u.isDeleted ∧
      (maskSensitiveData u).createdAt = u.createdAt ∧
      (maskSensitiveData u).updatedAt = u.updatedAt ∧
      (maskSensitiveData u).version = u.version) ∧
    (∀ st : Store, ∀ inp : CreateUserInput, ∀ now : Int, ∀ st' : Store, ∀ r : UserRec,
      createRecordApi st inp now = .ok (st', r) →
        ∃ u, u ∈ st'.users ∧ r = maskSensitiveData u) ∧
    (∀ st : Store, ∀ userId : Nat, ∀ upd : UpdateUserInput, ∀ now : Int,
        ∀ st' : Store, ∀ r : UserRec,
      updateRecordApi st userId upd now = .ok (st', r) →
        ∃ u, u ∈ st'.users ∧ r = maskSensitiveData u) ∧
    (∀ st : Store, ∀ userId : Nat, ∀ r : UserRec,
      getRecordApi st userId = .ok r → ∃ u, u ∈ st.users ∧ r = maskSensitiveData u) ∧
    (∀ st : Store, ∀ q : ListQuery, ∃ l : List UserRec,
      (∀ u ∈ l, u ∈ st.users) ∧ (getAllUsers st q).users = l.map maskSensitiveData) ∧
    (∀ st : Store, ∀ term : String, ∀ q : ListQuery, ∃ l : List UserRec,
      (∀ u ∈ l, u ∈ st.users) ∧ (searchUsers st term q).users = l.map maskSensitiveData) := by
  refine ⟨?_, ?_, ?_, ?_, ?_, getAllUsers_users_sourced, searchUsers_users_sourced⟩
  · intro u ha hp
    constructor
    · show (if u.aadhaar = "" then u.aadhaar else "XXXX-XXXX-" ++ sliceLast 4 u.aadhaar) =
        "XXXX-XXXX-" ++ sliceLast 4 u.aadhaar
      rw [if_neg ha]
    · show (if u.pan = "" then u.pan else "XXXXX" ++ sliceLast 4 u.pan) =
        "XXXXX" ++ sliceLast 4 u.pan
      rw [if_neg hp]
  · intro u
    exact ⟨rfl, rfl, rfl, rfl, rfl, rfl, rfl, rfl, rfl, rfl, rfl, rfl, rfl⟩
  · intro st inp now st' r h
    unfold createRecordApi at h
    cases hc : createUser st inp now with
    | error e => rw [hc] at h; exact absurd h (by simp [Except.map])
    | ok p =>
      rw [hc] at h
      simp only [Except.map, Except.ok.injEq, Prod.mk.injEq] at h
      obtain ⟨h1, h2⟩ := h
      subst h1
      obtain ⟨-, -, -, happ⟩ := createUser_ok st inp now p.1 p.2 (by rw [hc])
      exact ⟨p.2, by simp [happ], h2.symm⟩
  · intro st userId upd now st' r h
    unfold updateRecordApi at h
    cases hc : updateUser st userId upd now with
    | error e => rw [hc] at h; exact absurd h (by simp [Except.map])
    | ok p =>
      rw [hc] at h
      simp only [Except.map, Except.ok.injEq, Prod.mk.injEq] at h
      obtain ⟨h1, h2⟩ := h
      subst h1
      obtain ⟨-, -, u, hmem, -, -, -, husers⟩ :=
        updateUser_ok_spec st userId upd now p.1 p.2 (by rw [hc])
      refine ⟨p.2, ?_, h2.symm⟩
      rw [husers]
      exact mem_map_replace st.users u.id p.2 u hmem rfl
  · intro st userId r h
    unfold getRecordApi at h
    cases hc : getUserById st userId with
    | error e => rw [hc] at h; exact absurd h (by simp [Except.map])
    | ok u =>
      rw [hc] at h
      simp only [Except.map, Except.ok.injEq] at h
      exact ⟨u, getUserById_ok_mem st userId u hc, h.symm⟩

/-- C2 witness: Alice's mask has the placeholder shape; a concrete
create and a concrete get both return the mask of a stored record. -/
theorem c2_witness :
    ((maskSensitiveData uAlice).aadhaar = "XXXX-XXXX-" ++ sliceLast 4 uAlice.aadhaar ∧
     (maskSensitiveData uAlice).pan = "XXXXX" ++ sliceLast 4 uAlice.pan) ∧
    (∃ u, u ∈ (⟨[uAlice, uRobertNew], 8⟩ : Store).users ∧
      maskSensitiveData uRobertNew = maskSensitiveData u) ∧
    (∃ u, u ∈ (⟨[uAlice], 2⟩ : Store).users ∧
      maskSensitiveData uAlice = maskSensitiveData u) :=
  ⟨c2_masking_everywhere.1 uAlice (by decide) (by decide),
   c2_masking_everywhere.2.2.1 ⟨[uAlice], 7⟩ inpReusesDeletedEmail 21
     ⟨[uAlice, uRobertNew], 8⟩ (maskSensitiveData uRobertNew) rfl,
   c2_masking_everywhere.2.2.2.2.1 ⟨[uAlice], 2⟩ 1 (maskSensitiveData uAlice) rfl⟩

/-- When the pre-check lookup returns a record, one of the three
conflict branches necessarily fires (the record matched the `$or`). -/
theorem createUser_conflict_of_findOne_some (st : Store) (inp : CreateUserInput)
    (now : Int) (ex : UserRec) (hf : findOneUniq st inp = some ex) :
    ∃ m, createUser st inp now = .error (.conflict m) := by
  have hf2 := hf
  unfold findOneUniq findOneDoc at hf2
  have hpred := List.find?_some hf2
  unfold matchesFilter preFindHook matchesUniqQuery at hpred
  simp only [Bool.and_eq_true, Bool.or_eq_true, beq_iff_eq] at hpred
  obtain ⟨-, hmq⟩ := hpred
  rcases hmq with (hm1 | hm2) | hm3
  · exact ⟨"Email already registered", by simp [createUser, hf, hm1]⟩
  · by_cases h1 : ex.email = inp.email
    · exact ⟨"Email already registered", by simp [createUser, hf, h1]⟩
    · exact ⟨"Aadhaar already registered", by simp [createUser, hf, h1, hm2]⟩
  · by_cases h1 : ex.email = inp.email
    · exact ⟨"Email already registered", by simp [createUser, hf, h1]⟩
    · by_cases h2 : ex.aadhaar = inp.aadhaar
      · exact ⟨"Aadhaar already registered", by simp [createUser, hf, h1, h2]⟩
      · exact ⟨"PAN already registered", by simp [createUser, hf, h1, h2, hm3]⟩

/-- A collision on any of the three indexed fields trips the unique
index. -/
theorem indexViolation_some_of_collision (users : List UserRec)
    (email aadhaar pan : String)
    (h : users.any (fun v => v.email == email) = true ∨
         users.any (fun v => v.aadhaar == aadhaar) = true ∨
         users.any (fun v => v.pan == pan) = true) :
    ∃ f, indexViolation users none email aadhaar pan = some f := by
  unfold indexViolation
  by_cases h1 : users.any (fun v => v.email == email) = true
  · exact ⟨"email", by simp [h1]⟩
  · by_cases h2 : users.any (fun v => v.aadhaar == aadhaar) = true
    · exact ⟨"aadhaar", by simp [h1, h2]⟩
    · by_cases h3 : users.any (fun v => v.pan == pan) = true
      · exact ⟨"pan", by simp [h1, h2, h3]⟩
      · rcases h with h | h | h
        · exact absurd h h1
        · exact absurd h h2
        · exact absurd h h3

/-- C3 (amended): the create-time pre-check, being a `findOne`, sees
only non-soft-deleted records; a matching live record yields a
service-level ConflictError, and a collision with any record — soft
deleted included — still makes the create fail (soft-deleted collisions
are caught by the store's unique indexes instead of the pre-check). -/
theorem c3_amended :
    (∀ st : Store, ∀ inp : CreateUserInput, ∀ now : Int,
      (∃ u ∈ st.users, u.isDeleted = false ∧ matchesUniqQuery inp u = true) →
        ∃ m, createUser st inp now = .error (.conflict m)) ∧
    (∀ st : Store, ∀ inp : CreateUserInput, ∀ now : Int,
      (∃ u ∈ st.users, matchesUniqQuery inp u = true) →
        ∃ e, createUser st inp now = .error e) := by
  constructor
  · intro st inp now h
    obtain ⟨u, hmem, hdel, hm⟩ := h
    cases hf : findOneUniq st inp with
    | some ex => exact createUser_conflict_of_findOne_some st inp now ex hf
    | none =>
      exfalso
      unfold findOneUniq findOneDoc at hf
      rw [List.find?_eq_none] at hf
      apply hf u hmem
      unfold matchesFilter preFindHook
      simp [hdel, hm]
  · intro st inp now h
    obtain ⟨u, hmem, hm⟩ := h
    cases hf : findOneUniq st inp with
    | some ex =>
      obtain ⟨m, hc⟩ := createUser_conflict_of_findOne_some st inp now ex hf
      exact ⟨.conflict m, hc⟩
    | none =>
      have hany : st.users.any (fun v => v.email == inp.email) = true ∨
          st.users.any (fun v => v.aadhaar == inp.aadhaar) = true ∨
          st.users.any (fun v => v.pan == inp.pan) = true := by
        unfold matchesUniqQuery at hm
        simp only [Bool.or_eq_true] at hm
        rcases hm with (h | h) | h
        · exact Or.inl (List.any_eq_true.mpr ⟨u, hmem, h⟩)
        · exact Or.inr (Or.inl (List.any_eq_true.mpr ⟨u, hmem, h⟩))
        · exact Or.inr (Or.inr (List.any_eq_true.mpr ⟨u, hmem, h⟩))
      obtain ⟨f, hv⟩ :=
        indexViolation_some_of_collision st.users inp.email inp.aadhaar inp.pan hany
      exact ⟨.duplicateKey f, by simp [createUser, hf, saveNewUser, hv]⟩

/-- C3 amended witness: a live collision yields a ConflictError; a
collision with only a soft-deleted record still makes the create fail. -/
theorem c3_amended_witness :
    (∃ u ∈ (⟨[uCarol, uDave], 7⟩ : Store).users, u.isDeleted = false ∧
      matchesUniqQuery inpTwoCollisions u = true) ∧
    (∃ m, createUser ⟨[uCarol, uDave], 7⟩ inpTwoCollisions 9 = .error (.conflict m)) ∧
    (∃ u ∈ (⟨[uBobDeleted], 3⟩ : Store).users,
      matchesUniqQuery inpReusesDeletedEmail u = true) ∧
    (∃ e, createUser ⟨[uBobDeleted], 3⟩ inpReusesDeletedEmail 5 = .error e) :=
  ⟨by decide,
   c3_amended.1 ⟨[uCarol, uDave], 7⟩ inpTwoCollisions 9 (by decide),
   by decide,
   c3_amended.2 ⟨[uBobDeleted], 3⟩ inpReusesDeletedEmail 5 (by decide)⟩

/-- C4 (amended): whenever the create reports a service ConflictError,
the field it names genuinely collides with a live (non-soft-deleted)
record — the field is the first in the order email → aadhaar → pan to
match the single record the lookup returned, which for collisions
spanning different records need not be the globally first colliding
field in that priority order. -/
theorem c4_amended :
    ∀ st : Store, ∀ inp : CreateUserInput, ∀ now : Int, ∀ m : String,
      createUser st inp now = .error (.conflict m) →
        (m = "Email already registered" ∧
          ∃ u ∈ st.users, u.isDeleted = false ∧ u.email = inp.email) ∨
        (m = "Aadhaar already registered" ∧
          ∃ u ∈ st.users, u.isDeleted = false ∧ u.aadhaar = inp.aadhaar) ∨
        (m = "PAN already registered" ∧
          ∃ u ∈ st.users, u.isDeleted = false ∧ u.pan = inp.pan) := by
  intro st inp now m h
  unfold createUser at h
  split at h
  · rename_i ex hf
    have hf2 := hf
    unfold findOneUniq findOneDoc at hf2
    have hmem := List.mem_of_find?_eq_some hf2
    have hpred := List.find?_some hf2
    unfold matchesFilter preFindHook at hpred
    simp only [Bool.and_eq_true, beq_iff_eq] at hpred
    split_ifs at h with h1 h2 h3
    · simp only [Except.error.injEq, ServiceError.conflict.injEq] at h
      exact Or.inl ⟨h.symm, ex, hmem, hpred.1, beq_iff_eq.mp h1⟩
    · simp only [Except.error.injEq, ServiceError.conflict.injEq] at h
      exact Or.inr (Or.inl ⟨h.symm, ex, hmem, hpred.1, beq_iff_eq.mp h2⟩)
    · simp only [Except.error.injEq, ServiceError.conflict.injEq] at h
      exact Or.inr (Or.inr ⟨h.symm, ex, hmem, hpred.1, beq_iff_eq.mp h3⟩)
    · exfalso
      unfold saveNewUser at h
      split at h
      · simp at h
      · simp at h
  · exfalso
    unfold saveNewUser at h
    split at h
    · simp at h
    · simp at h

/-- C4 amended witness: the PAN conflict reported for
`inpTwoCollisions` names a field that really collides with a live
record. -/
theorem c4_amended_witness :
    ("PAN already registered" = "Email already registered" ∧
      ∃ u ∈ (⟨[uCarol, uDave], 7⟩ : Store).users, u.isDeleted = false ∧
        u.email = inpTwoCollisions.email) ∨
    ("PAN already registered" = "Aadhaar already registered" ∧
      ∃ u ∈ (⟨[uCarol, uDave], 7⟩ : Store).users, u.isDeleted = false ∧
        u.aadhaar = inpTwoCollisions.aadhaar) ∨
    ("PAN already registered" = "PAN already registered" ∧
      ∃ u ∈ (⟨[uCarol, uDave], 7⟩ : Store).users, u.isDeleted = false ∧
        u.pan = inpTwoCollisions.pan) :=
  c4_amended ⟨[uCarol, uDave], 7⟩ inpTwoCollisions 9 "PAN already registered" rfl

/-- A pattern with no quantifier character parses to bare
single-character atoms. -/
theorem parsePat_literal :
    ∀ pat : List Char, (∀ c ∈ pat, isQuantChar c = false) →
      parsePat pat = pat.map RAtom.once
  | [], _ => rfl
  | [_], _ => rfl
  | c :: d :: rest, h => by
    have hd : isQuantChar d = false := h d (by simp)
    have hstar : ¬(d = '*') := fun hc => by rw [hc] at hd; simp [isQuantChar] at hd
    have hplus : ¬(d = '+') := fun hc => by rw [hc] at hd; simp [isQuantChar] at hd
    have hopt : ¬(d = '?') := fun hc => by rw [hc] at hd; simp [isQuantChar] at hd
    show (if d = '*' then RAtom.star c :: parsePat rest
      else if d = '+' then RAtom.plus c :: parsePat rest
      else if d = '?' then RAtom.opt c :: parsePat rest
      else RAtom.once c :: parsePat (d :: rest)) =
        RAtom.once c :: (d :: rest).map RAtom.once
    rw [if_neg hstar, if_neg hplus, if_neg hopt,
      parsePat_literal (d :: rest) (fun x hx => h x (List.mem_cons_of_mem c hx))]

/-- On bare atoms from a `.`-free pattern, the matcher (with any
sufficient fuel) is exactly the literal case-insensitive prefix
match. -/
theorem ratomsMatchFuel_once_eq :
    ∀ pat : List Char, ∀ s : List Char, ∀ fuel : Nat, pat.length < fuel →
      '.' ∉ pat →
      ratomsMatchFuel fuel (pat.map RAtom.once) s = substrPrefix pat s := by
  intro pat
  induction pat with
  | nil =>
    intro s fuel hf _
    cases fuel with
    | zero => exact absurd hf (by omega)
    | succ f => rfl
  | cons p ps ih =>
    intro s fuel hf hnd
    cases fuel with
    | zero => exact absurd hf (by omega)
    | succ f =>
      have hp : p ≠ '.' := fun hc => hnd (hc ▸ List.mem_cons_self p ps)
      have hnd2 : '.' ∉ ps := fun hc => hnd (List.mem_cons_of_mem p hc)
      have hf2 : ps.length < f := by
        have := Nat.lt_of_succ_lt_succ hf
        simpa using this
      cases s with
      | nil => rfl
      | cons c cs =>
        show (regexCharMatch p c && ratomsMatchFuel f (ps.map RAtom.once) cs) =
          (charEqCI p c && substrPrefix ps cs)
        rw [ih cs f hf2 hnd2]
        unfold regexCharMatch charEqCI
        rw [beq_eq_false_iff_ne.mpr hp, Bool.false_or]

/-- The standard fuel is sufficient on bare atoms: prefix matching a
`.`-free quantifier-free pattern is literal prefix matching. -/
theorem ratomsMatchPrefix_once_eq (pat s : List Char) (hnd : '.' ∉ pat) :
    ratomsMatchPrefix (pat.map RAtom.once) s = substrPrefix pat s := by
  apply ratomsMatchFuel_once_eq pat s _ ?_ hnd
  unfold ratomsFuel
  rw [List.length_map]
  calc pat.length < pat.length + 1 := Nat.lt_succ_self _
    _ ≤ (s.length + 1) * (pat.length + 1) :=
        Nat.le_mul_of_pos_left _ (Nat.succ_pos _)

/-- On a `.`-free quantifier-free pattern, the unanchored search is
exactly literal case-insensitive substring search. -/
theorem regexSearchAtoms_once_eq (pat : List Char) (hnd : '.' ∉ pat) :
    ∀ s : List Char, regexSearchAtoms (pat.map RAtom.once) s = substrSearch pat s := by
  intro s
  induction s with
  | nil => exact ratomsMatchPrefix_once_eq pat [] hnd
  | cons c cs ih =>
    show (ratomsMatchPrefix (pat.map RAtom.once) (c :: cs) ||
        regexSearchAtoms (pat.map RAtom.once) cs) =
      (substrPrefix pat (c :: cs) || substrSearch pat cs)
    rw [ratomsMatchPrefix_once_eq pat (c :: cs) hnd, ih]

/-- The model honours quantifier semantics where the old literal reading
would not: "a+" regex-matches "aa" although it is not a literal
substring of it. -/
theorem regexTestCI_quantifier_demo :
    regexTestCI "a+" "aa" = true ∧ containsCI "a+" "aa" = false :=
  ⟨rfl, rfl⟩

/-- C8 (amended): the search term is interpreted as a case-insensitive
regular-expression pattern (not a literal), matched against name or
email; within the modelled pattern fragment the returned page is exactly
the requested slice of the non-deleted matching records and the reported
total counts exactly those records (page and count use the same filter
here).  For terms free of every PCRE metacharacter the pattern match
coincides with literal case-insensitive substring matching. -/
theorem c8_amended :
    (∀ pat s : String, (∀ c ∈ pat.data, c ∉ regexMetaChars) →
      regexTestCI pat s = containsCI pat s) ∧
    (∀ st : Store, ∀ term : String, ∀ q : ListQuery, patSupported term = true →
      (searchUsers st term q).users =
        (((st.users.filter (fun u => (u.isDeleted == false) &&
            (regexTestCI term u.name || regexTestCI term u.email))).drop
          (calculateSkip (parsePage q.page) (parseLimit q.limit))).take
          (parseLimit q.limit)).map maskSensitiveData ∧
      (searchUsers st term q).meta =
        generateMeta (parsePage q.page) (parseLimit q.limit)
          (st.users.filter (fun u => (u.isDeleted == false) &&
            (regexTestCI term u.name || regexTestCI term u.email))).length) := by
  constructor
  · intro pat s h
    have hq : ∀ c ∈ pat.data, isQuantChar c = false := by
      intro c hc
      have hm := h c hc
      have h1 : c ≠ '*' := fun he => hm (by rw [he]; decide)
      have h2 : c ≠ '+' := fun he => hm (by rw [he]; decide)
      have h3 : c ≠ '?' := fun he => hm (by rw [he]; decide)
      simp [isQuantChar, h1, h2, h3]
    have hnd : '.' ∉ pat.data := fun hc => h '.' hc (by decide)
    unfold regexTestCI containsCI
    rw [parsePat_literal pat.data hq, regexSearchAtoms_once_eq pat.data hnd s.data]
  · intro st term q _
    exact ⟨rfl, rfl⟩

/-- C8 amended witness: for the metacharacter-free term "jane" pattern
match equals literal substring match, and the spec's example — searching
"jane" over Jane Smith and John Doe — returns exactly (masked) Jane,
with total 1, via the page/count characterization at that supported
term. -/
theorem c8_amended_witness :
    (∀ c ∈ "jane".data, c ∉ regexMetaChars) ∧
    regexTestCI "jane" "Jane Smith" = containsCI "jane" "Jane Smith" ∧
    patSupported "jane" = true ∧
    (searchUsers ⟨[uJane, uJohn], 5⟩ "jane" {}).users = [maskSensitiveData uJane] ∧
    (searchUsers ⟨[uJane, uJohn], 5⟩ "jane" {}).meta = generateMeta 1 10 1 :=
  ⟨by decide, c8_amended.1 "jane" "Jane Smith" (by decide), rfl,
   (c8_amended.2 ⟨[uJane, uJohn], 5⟩ "jane" {} rfl).1,
   (c8_amended.2 ⟨[uJane, uJohn], 5⟩ "jane" {} rfl).2⟩
